import Mathlib

/-!
Verification of the map-display helpers in
`src/data_cube_utilities/data_cube_utilities/dc_display_map.py`.
The Python functions are shallowly embedded as Lean definitions over `ℝ`,
`ℤ`, `List` and `Except`, and the behavioural claims about them are proved
or refuted below.
-/

set_option maxRecDepth 16384

namespace DcDisplayMap

/-- Truncation of a real number toward zero: the behaviour of the Python
`int()` conversion applied to a real value (floor for nonnegative input,
ceiling for negative input). -/
noncomputable def truncToZero (x : ℝ) : ℤ := if 0 ≤ x then ⌊x⌋ else ⌈x⌉

/-- Error raised by `math.log` when its argument is not positive
(a Python `ValueError: math domain error`). -/
inductive ZoomError where
  | domainError
deriving DecidableEq

/-- Embedding of `_degree_to_zoom_level(l1, l2, margin)` from
`dc_display_map.py`, lines 8 to 17.  The source computes
`degree = abs(l1 - l2) * (1 + margin)`; when `degree != 0` it returns
`int(math.log(360/degree)/math.log(2))`, which is the base-2 logarithm of
`360/degree` truncated toward zero (`math.log` raises a domain error when
`360/degree` is not positive, which for nonzero `degree` happens exactly
when `degree < 0`); when `degree == 0` it returns `18`. -/
noncomputable def degree_to_zoom_level (l1 l2 margin : ℝ) : Except ZoomError ℤ :=
  if |l1 - l2| * (1 + margin) = 0 then .ok 18
  else if |l1 - l2| * (1 + margin) < 0 then .error .domainError
  else .ok (truncToZero (Real.logb 2 (360 / (|l1 - l2| * (1 + margin)))))

/-- The fixed 128-entry color palette hardcoded in
`generate_n_visually_distinct_colors` (`dc_display_map.py`, lines 145
to 161), in source order. -/
def colors : List String :=
  ["#000000", "#FFFF00", "#1CE6FF", "#FF34FF", "#FF4A46", "#008941", "#006FA6", "#A30059",
   "#FFDBE5", "#7A4900", "#0000A6", "#63FFAC", "#B79762", "#004D43", "#8FB0FF", "#997D87",
   "#5A0007", "#809693", "#FEFFE6", "#1B4400", "#4FC601", "#3B5DFF", "#4A3B53", "#FF2F80",
   "#61615A", "#BA0900", "#6B7900", "#00C2A0", "#FFAA92", "#FF90C9", "#B903AA", "#D16100",
   "#DDEFFF", "#000035", "#7B4F4B", "#A1C299", "#300018", "#0AA6D8", "#013349", "#00846F",
   "#372101", "#FFB500", "#C2FFED", "#A079BF", "#CC0744", "#C0B9B2", "#C2FF99", "#001E09",
   "#00489C", "#6F0062", "#0CBD66", "#EEC3FF", "#456D75", "#B77B68", "#7A87A1", "#788D66",
   "#885578", "#FAD09F", "#FF8A9A", "#D157A0", "#BEC459", "#456648", "#0086ED", "#886F4C",
   "#34362D", "#B4A8BD", "#00A6AA", "#452C2C", "#636375", "#A3C8C9", "#FF913F", "#938A81",
   "#575329", "#00FECF", "#B05B6F", "#8CD0FF", "#3B9700", "#04F757", "#C8A1A1", "#1E6E00",
   "#7900D7", "#A77500", "#6367A9", "#A05837", "#6B002C", "#772600", "#D790FF", "#9B9700",
   "#549E79", "#FFF69F", "#201625", "#72418F", "#BC23FF", "#99ADC0", "#3A2465", "#922329",
   "#5B4534", "#FDE8DC", "#404E55", "#0089A3", "#CB7E98", "#A4E804", "#324E72", "#6A3A4C",
   "#83AB58", "#001C1E", "#D1F7CE", "#004B28", "#C8D0F6", "#A3A489", "#806C66", "#222800",
   "#BF5650", "#E83000", "#66796D", "#DA007C", "#FF1A59", "#8ADBB4", "#1E0200", "#5B4E51",
   "#C895C5", "#320033", "#FF6832", "#66E1D3", "#CFCDAC", "#D0AC94", "#7ED379", "#012C58"]

/-- Python list slicing `l[:n]` for an integer stop `n`: for nonnegative
`n` the first `min n (length l)` elements; for negative `n` the stop index
counts from the end, giving the first `max 0 (length l + n)` elements. -/
def pySliceTo (l : List String) (n : ℤ) : List String :=
  if 0 ≤ n then l.take n.toNat else l.take (l.length - (-n).toNat)

/-- Embedding of `generate_n_visually_distinct_colors(n)`
(`dc_display_map.py`, lines 144 to 165): when `n > len(colors)` it raises
an exception whose detail is the formatted message built from
`len(colors)` only; otherwise it returns the slice `colors[:n]`. -/
def generate_n_visually_distinct_colors (n : ℤ) : Except String (List String) :=
  if (colors.length : ℤ) < n then
    .error ("Can not generate more than " ++ toString colors.length
      ++ " distinct colors.")
  else .ok (pySliceTo colors n)

/-- Boolean test of whether the list `needle` occurs at the start of
`hay`. -/
def startsWithChars : List Char → List Char → Bool
  | [], _ => true
  | _ :: _, [] => false
  | a :: as, b :: bs => a = b && startsWithChars as bs

/-- Boolean test of whether the list `needle` occurs contiguously anywhere
inside `hay`. -/
def hasSubChars (hay needle : List Char) : Bool :=
  startsWithChars needle hay ||
    match hay with
    | [] => false
    | _ :: t => hasSubChars t needle

/-- The decimal rendering of `k` occurs as a substring of `s`: the sense in
which an error message carries a count. -/
def carriesCount (s : String) (k : ℤ) : Prop :=
  hasSubChars s.toList (toString k).toList = true

instance (s : String) (k : ℤ) : Decidable (carriesCount s k) := by
  unfold carriesCount
  infer_instance

/-- One drawn polyline segment of the optional grid overlay: its two
endpoints in (latitude, longitude) order, its color and its opacity. -/
structure Segment where
  p1 : ℝ × ℝ
  p2 : ℝ × ℝ
  color : String
  opacity : ℝ

/-- Number of samples produced by `numpy.arange(start, stop, step)` over
the reals: `⌈(stop - start) / step⌉` clamped at zero.  A zero step makes
numpy raise; no claim depends on that corner, which is modelled as zero
samples, and the grid theorem below assumes nonzero resolutions. -/
noncomputable def np_arange_len (start stop step : ℝ) : ℕ :=
  if step = 0 then 0 else (⌈(stop - start) / step⌉).toNat

/-- Embedding of `numpy.arange(start, stop, step)` over the reals: the
fixed-step samples `start + i * step` for `i` below `np_arange_len`. -/
noncomputable def np_arange (start stop step : ℝ) : List ℝ :=
  (List.range (np_arange_len start stop step)).map (fun i : ℕ => start + (i : ℝ) * step)

/-- The grid overlay drawn by `display_map` for given bounds and a
resolution pair (`dc_display_map.py`, lines 106 to 119): one vertical
segment per sample of `np.arange` over the longitude bounds with step
`abs(res_lon)`, followed by one horizontal segment per sample of
`np.arange` over the latitude bounds with step `abs(res_lat)`, every
segment white with opacity `0.3`. -/
noncomputable def gridOverlay (lat lon res : ℝ × ℝ) : List Segment :=
  (np_arange lon.1 lon.2 |res.2|).map
    (fun x => { p1 := (lat.1, x), p2 := (lat.2, x),
                color := "white", opacity := 0.3 }) ++
  (np_arange lat.1 lat.2 |res.1|).map
    (fun y => { p1 := (y, lon.1), p2 := (y, lon.2),
                color := "white", opacity := 0.3 })

/-- Errors of the composer `display_map`: the assertion failure when a
required bounds argument is absent (lines 47 and 48), and the propagated
domain error of the zoom estimator (unreachable for the fixed margin
`-0.5`, as proved below). -/
inductive MapError where
  | missingArgument
  | zoomDomainError
deriving DecidableEq

/-- The map view object built by `display_map`: the fields of the
constructed `folium.Map` and of the overlays drawn onto it that the
claims refer to.  The hardcoded tile-layer wiring carries no logic and is
not modelled. -/
structure FoliumMap where
  location : ℝ × ℝ
  zoom_start : ℤ
  grid : List Segment
  boundary : List (ℝ × ℝ)
  latLngPopup : Bool

/-- Embedding of `display_map(latitude, longitude, resolution)`
(`dc_display_map.py`, lines 19 to 141): asserts that both bounds are
present, computes per-axis zoom levels with margin `-0.5` plus the zoom
bias `0`, takes their minimum, centers the map at the per-axis arithmetic
means, draws the grid when a resolution is given, and always draws the
bounding rectangle and attaches the coordinate popup. -/
noncomputable def display_map (latitude longitude resolution : Option (ℝ × ℝ)) :
    Except MapError FoliumMap :=
  match latitude, longitude with
  | none, _ => .error .missingArgument
  | some _, none => .error .missingArgument
  | some lat, some lon =>
    match degree_to_zoom_level lat.1 lat.2 (-0.5),
        degree_to_zoom_level lon.1 lon.2 (-0.5) with
    | .ok lat_zoom_level, .ok lon_zoom_level =>
      .ok { location := ((lat.1 + lat.2) / 2, (lon.1 + lon.2) / 2)
            zoom_start := min (lat_zoom_level + 0) (lon_zoom_level + 0)
            grid := match resolution with
              | none => []
              | some res => gridOverlay lat lon res
            boundary := [(lat.1, lon.1), (lat.1, lon.2), (lat.2, lon.2),
              (lat.2, lon.1), (lat.1, lon.1)]
            latLngPopup := true }
    | _, _ => .error .zoomDomainError

/-- One row of the tabular dataset consumed by the grouped-pin composer:
its `Latitude` value, its `Longitude` value, and its value in the selected
grouping column (named by the `group_name` parameter, default
`LandUse`). -/
structure PinRow where
  latitude : ℝ
  longitude : ℝ
  group : String

/-- Embedding of `pandas.unique` on a column of values: the distinct
values in first-seen order. -/
def pd_unique (l : List String) : List String :=
  l.foldl (fun acc x => if acc.contains x then acc else acc ++ [x]) []

/-- The first-seen-order distinct values of the grouping column,
`list(pd.unique(data_frame[group_column_name]))` in the source. -/
def groupLabels (rows : List PinRow) : List String :=
  pd_unique (rows.map (fun r => r.group))

/-- Mean of a column of values (`pandas.Series.mean`).  The empty-column
case, NaN in pandas, is exercised by no claim and is modelled through
division by zero. -/
noncomputable def seriesMean (l : List ℝ) : ℝ := l.sum / l.length

/-- Minimum of a column of values (`pandas.Series.min`); the empty-column
case, NaN in pandas, is exercised by no claim and is modelled as `0`. -/
noncomputable def seriesMin : List ℝ → ℝ
  | [] => 0
  | x :: xs => xs.foldl min x

/-- Maximum of a column of values (`pandas.Series.max`); the empty-column
case, NaN in pandas, is exercised by no claim and is modelled as `0`. -/
noncomputable def seriesMax : List ℝ → ℝ
  | [] => 0
  | x :: xs => xs.foldl max x

/-- The value of a successful `Except` computation, with a default for the
error case (used below only where the error case is unreachable). -/
def okOr {ε α : Type} (e : Except ε α) (d : α) : α :=
  match e with
  | .ok a => a
  | .error _ => d

/-- One circular marker drawn per dataset row
(`folium.vector_layers.CircleMarker`, lines 228 to 235): location, radius
`5`, popup text equal to the group value of the row, stroke color and fill
color both looked up in the label-to-color dict. -/
structure CircleMarker where
  location : ℝ × ℝ
  radius : ℕ
  popup : String
  color : Option String
  fill : Bool
  fill_color : Option String

/-- The map object produced by the grouped-pin composer: the fields of the
created or reused `folium.Map` that the claims refer to. -/
structure PinsMap where
  location : ℝ × ℝ
  zoom_start : ℤ
  markers : List CircleMarker
  latLngPopup : Bool

/-- The markers produced by the row loop of
`display_grouped_pandas_rows_as_pins` (lines 223 to 235), one per row in
row order, with stroke and fill color equal to the dict entry of the row
group value. -/
def pinMarkers (rows : List PinRow) (cmap : List (String × String)) :
    List CircleMarker :=
  rows.map (fun r => CircleMarker.mk (r.latitude, r.longitude) 5 r.group
    (cmap.lookup r.group) true (cmap.lookup r.group))

/-- Embedding of `display_grouped_pandas_rows_as_pins(data_frame,
group_name, folium_map)` (`dc_display_map.py`, lines 168 to 238): computes
the center from the column means and the zoom level from the latitude
column extremes with default margin `0` (the `okOr` default is unreachable
there, since margin `0` keeps the span nonnegative), builds the
label-to-color dict by zipping the first-seen-order distinct group values
with the generated palette prefix (propagating the palette failure when
there are more than 128 distinct values), then draws one marker per row
onto the supplied map, or onto a freshly created one when none is
supplied, and attaches the coordinate popup. -/
noncomputable def display_grouped_pandas_rows_as_pins
    (rows : List PinRow) (folium_map : Option PinsMap) : Except String PinsMap :=
  match generate_n_visually_distinct_colors ((groupLabels rows).length : ℤ) with
  | .error e => .error e
  | .ok pallete =>
    let cmap := (groupLabels rows).zip pallete
    match folium_map with
    | some m0 => .ok { m0 with
        markers := m0.markers ++ pinMarkers rows cmap
        latLngPopup := true }
    | none => .ok {
        location := (seriesMean (rows.map (fun r => r.latitude)),
          seriesMean (rows.map (fun r => r.longitude)))
        zoom_start := okOr (degree_to_zoom_level
          (seriesMin (rows.map (fun r => r.latitude)))
          (seriesMax (rows.map (fun r => r.latitude))) 0) 0
        markers := pinMarkers rows cmap
        latLngPopup := true }

/-- A concrete 3-row dataset whose group labels appear in the order
A, B, A. -/
noncomputable def demoRows : List PinRow :=
  [PinRow.mk 0 0 "A", PinRow.mk 1 1 "B", PinRow.mk 2 2 "A"]

lemma degree_to_zoom_level_zero (l1 l2 margin : ℝ)
    (h : |l1 - l2| * (1 + margin) = 0) :
    degree_to_zoom_level l1 l2 margin = .ok 18 := by
  unfold degree_to_zoom_level
  rw [if_pos h]

lemma degree_to_zoom_level_pos (l1 l2 margin : ℝ)
    (h : 0 < |l1 - l2| * (1 + margin)) :
    degree_to_zoom_level l1 l2 margin
      = .ok (truncToZero (Real.logb 2 (360 / (|l1 - l2| * (1 + margin))))) := by
  unfold degree_to_zoom_level
  rw [if_neg h.ne.symm, if_neg (not_lt.2 h.le)]

lemma degree_to_zoom_level_neg (l1 l2 margin : ℝ)
    (h : |l1 - l2| * (1 + margin) < 0) :
    degree_to_zoom_level l1 l2 margin = .error .domainError := by
  unfold degree_to_zoom_level
  rw [if_neg h.ne, if_pos h]

lemma truncToZero_intCast (n : ℤ) : truncToZero (n : ℝ) = n := by
  unfold truncToZero
  split <;> simp

lemma truncToZero_eq_of_eq_intCast (x : ℝ) (n : ℤ) (h : x = (n : ℝ)) :
    truncToZero x = n := by
  rw [h, truncToZero_intCast]

lemma truncToZero_nonneg {x : ℝ} (h : -1 < x) : 0 ≤ truncToZero x := by
  unfold truncToZero
  split
  · exact Int.floor_nonneg.2 (by assumption)
  · have h1 : ((-1 : ℤ) : ℝ) < (⌈x⌉ : ℝ) := by
      push_cast
      exact lt_of_lt_of_le h (Int.le_ceil x)
    have h2 : (-1 : ℤ) < ⌈x⌉ := by exact_mod_cast h1
    omega

/-- Whenever the multiplier `1 + margin` is nonnegative, the effective span
is nonnegative and the estimator succeeds with some integer. -/
lemma degree_to_zoom_level_ok (l1 l2 margin : ℝ) (h : 0 ≤ 1 + margin) :
    ∃ z : ℤ, degree_to_zoom_level l1 l2 margin = .ok z := by
  have h0 : 0 ≤ |l1 - l2| * (1 + margin) := mul_nonneg (abs_nonneg _) h
  rcases eq_or_lt_of_le h0 with hz | hp
  · exact ⟨18, degree_to_zoom_level_zero _ _ _ hz.symm⟩
  · exact ⟨_, degree_to_zoom_level_pos _ _ _ hp⟩

lemma span_0_360 : |(0 : ℝ) - 360| * (1 + 0) = 360 := by
  rw [abs_of_nonpos (by norm_num : (0 : ℝ) - 360 ≤ 0)]
  norm_num

lemma span_0_180 : |(0 : ℝ) - 180| * (1 + 0) = 180 := by
  rw [abs_of_nonpos (by norm_num : (0 : ℝ) - 180 ≤ 0)]
  norm_num

lemma span_0_small : |(0 : ℝ) - 1.40625| * (1 + 0) = 1.40625 := by
  rw [abs_of_nonpos (by norm_num : (0 : ℝ) - 1.40625 ≤ 0)]
  norm_num

lemma d2zl_0_360 : degree_to_zoom_level 0 360 0 = .ok 0 := by
  rw [degree_to_zoom_level_pos 0 360 0 (by rw [span_0_360]; norm_num), span_0_360]
  have h2 : (360 : ℝ) / 360 = 1 := by norm_num
  rw [h2, Real.logb_one, truncToZero_eq_of_eq_intCast 0 0 (by norm_num)]

lemma d2zl_0_180 : degree_to_zoom_level 0 180 0 = .ok 1 := by
  rw [degree_to_zoom_level_pos 0 180 0 (by rw [span_0_180]; norm_num), span_0_180]
  have h2 : (360 : ℝ) / 180 = 2 := by norm_num
  rw [h2, Real.logb_self_eq_one (by norm_num : (1 : ℝ) < 2)]
  rw [truncToZero_eq_of_eq_intCast 1 1 (by norm_num)]

lemma d2zl_0_small : degree_to_zoom_level 0 1.40625 0 = .ok 8 := by
  rw [degree_to_zoom_level_pos 0 1.40625 0 (by rw [span_0_small]; norm_num),
    span_0_small]
  have h2 : (360 : ℝ) / 1.40625 = 2 ^ (8 : ℕ) := by norm_num
  rw [h2, Real.logb_pow, Real.logb_self_eq_one (by norm_num : (1 : ℝ) < 2)]
  rw [truncToZero_eq_of_eq_intCast _ 8 (by push_cast; ring)]

lemma colors_length : colors.length = 128 := rfl

lemma np_arange_length (start stop step : ℝ) :
    (np_arange start stop step).length = np_arange_len start stop step := by
  unfold np_arange
  rw [List.length_map, List.length_range]

lemma gridOverlay_length (lat lon res : ℝ × ℝ) :
    (gridOverlay lat lon res).length
      = np_arange_len lon.1 lon.2 |res.2| + np_arange_len lat.1 lat.2 |res.1| := by
  unfold gridOverlay
  rw [List.length_append, List.length_map, List.length_map,
    np_arange_length, np_arange_length]

lemma gridOverlay_mem (lat lon res : ℝ × ℝ) (s : Segment)
    (hs : s ∈ gridOverlay lat lon res) : s.color = "white" ∧ s.opacity = 0.3 := by
  unfold gridOverlay at hs
  rw [List.mem_append] at hs
  rcases hs with hs | hs <;>
    · rw [List.mem_map] at hs
      obtain ⟨x, _, rfl⟩ := hs
      exact ⟨rfl, rfl⟩

lemma gridOverlay_vertical (lat lon res : ℝ × ℝ) (k : ℕ)
    (hk : k < np_arange_len lon.1 lon.2 |res.2|) :
    (gridOverlay lat lon res)[k]?
      = some (Segment.mk (lat.1, lon.1 + (k : ℝ) * |res.2|)
          (lat.2, lon.1 + (k : ℝ) * |res.2|) "white" 0.3) := by
  unfold gridOverlay
  rw [List.getElem?_append_left (by rw [List.length_map, np_arange_length]; exact hk)]
  rw [List.getElem?_map]
  unfold np_arange
  rw [List.getElem?_map]
  simp [List.getElem?_range, hk]

lemma gridOverlay_horizontal (lat lon res : ℝ × ℝ) (k : ℕ)
    (hk : k < np_arange_len lat.1 lat.2 |res.1|) :
    (gridOverlay lat lon res)[np_arange_len lon.1 lon.2 |res.2| + k]?
      = some (Segment.mk (lat.1 + (k : ℝ) * |res.1|, lon.1)
          (lat.1 + (k : ℝ) * |res.1|, lon.2) "white" 0.3) := by
  unfold gridOverlay
  rw [List.getElem?_append_right (by rw [List.length_map, np_arange_length]; omega)]
  rw [List.length_map, np_arange_length]
  have harg : np_arange_len lon.1 lon.2 |res.2| + k
      - np_arange_len lon.1 lon.2 |res.2| = k := by omega
  rw [harg, List.getElem?_map]
  unfold np_arange
  rw [List.getElem?_map]
  simp [List.getElem?_range, hk]

/-- Unfolding equation for `display_map` when both bounds are present and
the per-axis zoom estimations succeed. -/
lemma display_map_some (lat lon : ℝ × ℝ) (res : Option (ℝ × ℝ)) (zlat zlon : ℤ)
    (hlat : degree_to_zoom_level lat.1 lat.2 (-0.5) = .ok zlat)
    (hlon : degree_to_zoom_level lon.1 lon.2 (-0.5) = .ok zlon) :
    display_map (some lat) (some lon) res = .ok
      { location := ((lat.1 + lat.2) / 2, (lon.1 + lon.2) / 2)
        zoom_start := min (zlat + 0) (zlon + 0)
        grid := match res with
          | none => []
          | some r => gridOverlay lat lon r
        boundary := [(lat.1, lon.1), (lat.1, lon.2), (lat.2, lon.2),
          (lat.2, lon.1), (lat.1, lon.1)]
        latLngPopup := true } := by
  simp only [display_map, hlat, hlon]

lemma grouped_pins_palette (rows : List PinRow)
    (h : (groupLabels rows).length ≤ 128) :
    generate_n_visually_distinct_colors ((groupLabels rows).length : ℤ)
      = .ok (colors.take (groupLabels rows).length) := by
  unfold generate_n_visually_distinct_colors
  rw [if_neg (by rw [colors_length]; omega)]
  unfold pySliceTo
  rw [if_pos (by omega)]
  simp

lemma grouped_pins_eq_none (rows : List PinRow) (pallete : List String)
    (hgen : generate_n_visually_distinct_colors ((groupLabels rows).length : ℤ)
      = .ok pallete) :
    display_grouped_pandas_rows_as_pins rows none
      = .ok (PinsMap.mk
          (seriesMean (rows.map (fun r => r.latitude)),
            seriesMean (rows.map (fun r => r.longitude)))
          (okOr (degree_to_zoom_level (seriesMin (rows.map (fun r => r.latitude)))
            (seriesMax (rows.map (fun r => r.latitude))) 0) 0)
          (pinMarkers rows ((groupLabels rows).zip pallete)) true) := by
  simp only [display_grouped_pandas_rows_as_pins, hgen]

lemma grouped_pins_eq_some (rows : List PinRow) (m0 : PinsMap)
    (pallete : List String)
    (hgen : generate_n_visually_distinct_colors ((groupLabels rows).length : ℤ)
      = .ok pallete) :
    display_grouped_pandas_rows_as_pins rows (some m0)
      = .ok (PinsMap.mk m0.location m0.zoom_start
          (m0.markers ++ pinMarkers rows ((groupLabels rows).zip pallete))
          true) := by
  simp only [display_grouped_pandas_rows_as_pins, hgen]

/-- C1 counterexample: at `low = 0`, `high = 1`, `margin = -2` the effective
span is `-1`, which is nonzero, yet the estimator does not return the
truncated base-2 logarithm the claim promises for nonzero spans: the
underlying `math.log` call fails with a domain error instead. -/
theorem zoom_estimator_formula_cex :
    |(0 : ℝ) - 1| * (1 + (-2)) ≠ 0 ∧
    degree_to_zoom_level 0 1 (-2)
      ≠ .ok (truncToZero (Real.logb 2 (360 / (|(0 : ℝ) - 1| * (1 + (-2)))))) := by
  have h : |(0 : ℝ) - 1| * (1 + (-2)) = -1 := by
    rw [abs_of_nonpos (by norm_num : (0 : ℝ) - 1 ≤ 0)]
    norm_num
  refine ⟨by rw [h]; norm_num, ?_⟩
  rw [degree_to_zoom_level_neg 0 1 (-2) (by rw [h]; norm_num)]
  intro hcontra
  exact Except.noConfusion hcontra

/-- C1 (amended): provided the effective span
`|high - low| * (1 + margin)` is nonnegative (for a negative span the
underlying logarithm call fails instead of returning a value), the
estimator returns `18` when the span is zero and otherwise the base-2
logarithm of `360 / span` truncated toward zero; in particular equal
bounds give `18`, and with margin `0` the bounds `(0, 360)`, `(0, 180)`
and `(0, 1.40625)` give `0`, `1` and `8`. -/
theorem zoom_estimator_formula (l1 l2 margin : ℝ)
    (h : 0 ≤ |l1 - l2| * (1 + margin)) :
    (|l1 - l2| * (1 + margin) = 0 → degree_to_zoom_level l1 l2 margin = .ok 18) ∧
    (|l1 - l2| * (1 + margin) ≠ 0 →
      degree_to_zoom_level l1 l2 margin
        = .ok (truncToZero (Real.logb 2 (360 / (|l1 - l2| * (1 + margin)))))) ∧
    (l1 = l2 → degree_to_zoom_level l1 l2 margin = .ok 18) ∧
    degree_to_zoom_level 0 360 0 = .ok 0 ∧
    degree_to_zoom_level 0 180 0 = .ok 1 ∧
    degree_to_zoom_level 0 1.40625 0 = .ok 8 := by
  refine ⟨degree_to_zoom_level_zero l1 l2 margin, ?_, ?_,
    d2zl_0_360, d2zl_0_180, d2zl_0_small⟩
  · intro hne
    exact degree_to_zoom_level_pos l1 l2 margin (lt_of_le_of_ne h (Ne.symm hne))
  · intro heq
    exact degree_to_zoom_level_zero l1 l2 margin (by rw [heq]; simp)

/-- C1 witness: the amended theorem applied at `low = 0`, `high = 360`,
`margin = 0`. -/
theorem zoom_estimator_formula_witness :
    0 ≤ |(0 : ℝ) - 360| * (1 + 0) ∧ |(0 : ℝ) - 360| * (1 + 0) ≠ 0 ∧
    degree_to_zoom_level 0 360 0
      = .ok (truncToZero (Real.logb 2 (360 / (|(0 : ℝ) - 360| * (1 + 0))))) ∧
    degree_to_zoom_level 0 360 0 = .ok 0 :=
  ⟨by rw [span_0_360]; norm_num, by rw [span_0_360]; norm_num,
   (zoom_estimator_formula 0 360 0 (by rw [span_0_360]; norm_num)).2.1
     (by rw [span_0_360]; norm_num),
   (zoom_estimator_formula 0 360 0 (by rw [span_0_360]; norm_num)).2.2.2.1⟩

/-- C2: for all latitude and longitude bounds (and any resolution), the
composer succeeds and produces a map centered at the per-axis arithmetic
means whose zoom level is the minimum over the two axes of the zoom
estimator with margin `-0.5` plus the integer bias `0`. -/
theorem display_map_center_zoom (lat1 lat2 lon1 lon2 : ℝ)
    (res : Option (ℝ × ℝ)) :
    ∃ (zlat zlon : ℤ) (m : FoliumMap),
      degree_to_zoom_level lat1 lat2 (-0.5) = .ok zlat ∧
      degree_to_zoom_level lon1 lon2 (-0.5) = .ok zlon ∧
      display_map (some (lat1, lat2)) (some (lon1, lon2)) res = .ok m ∧
      m.location = ((lat1 + lat2) / 2, (lon1 + lon2) / 2) ∧
      m.zoom_start = min (zlat + 0) (zlon + 0) := by
  obtain ⟨zlat, hzlat⟩ := degree_to_zoom_level_ok lat1 lat2 (-0.5) (by norm_num)
  obtain ⟨zlon, hzlon⟩ := degree_to_zoom_level_ok lon1 lon2 (-0.5) (by norm_num)
  exact ⟨zlat, zlon, _, hzlat, hzlon,
    display_map_some (lat1, lat2) (lon1, lon2) res zlat zlon hzlat hzlon,
    rfl, rfl⟩

/-- C3: for every nonnegative requested count `n` the generator fails
exactly when `n` exceeds the palette length `128`, and otherwise returns
the first `n` palette entries unchanged; `0` gives the empty list, `128`
the full palette, and `129` fails. -/
theorem distinct_colors_spec (n : ℤ) (h : 0 ≤ n) :
    ((∃ e, generate_n_visually_distinct_colors n = .error e) ↔ 128 < n) ∧
    (n ≤ 128 →
      generate_n_visually_distinct_colors n = .ok (colors.take n.toNat)) ∧
    colors.length = 128 ∧
    generate_n_visually_distinct_colors 0 = .ok [] ∧
    generate_n_visually_distinct_colors 128 = .ok colors ∧
    (∃ e, generate_n_visually_distinct_colors 129 = .error e) := by
  refine ⟨⟨?_, ?_⟩, ?_, colors_length, rfl, rfl, ⟨_, rfl⟩⟩
  · rintro ⟨e, he⟩
    by_contra hlt
    push_neg at hlt
    unfold generate_n_visually_distinct_colors at he
    rw [if_neg (by rw [colors_length]; omega)] at he
    exact Except.noConfusion he
  · intro hlt
    exact ⟨_, by
      unfold generate_n_visually_distinct_colors
      rw [if_pos (by rw [colors_length]; omega)]⟩
  · intro hle
    unfold generate_n_visually_distinct_colors
    rw [if_neg (by rw [colors_length]; omega)]
    unfold pySliceTo
    rw [if_pos h]

/-- C3 witness: the theorem applied at `n = 3`. -/
theorem distinct_colors_spec_witness :
    (0 : ℤ) ≤ 3 ∧
    ((∃ e, generate_n_visually_distinct_colors 3 = .error e) ↔ (128 : ℤ) < 3) ∧
    ((3 : ℤ) ≤ 128 →
      generate_n_visually_distinct_colors 3 = .ok (colors.take (3 : ℤ).toNat)) ∧
    colors.length = 128 ∧
    generate_n_visually_distinct_colors 3 = .ok (colors.take (3 : ℤ).toNat) :=
  ⟨by decide, (distinct_colors_spec 3 (by decide)).1,
   (distinct_colors_spec 3 (by decide)).2.1,
   (distinct_colors_spec 3 (by decide)).2.2.1,
   (distinct_colors_spec 3 (by decide)).2.1 (by decide)⟩

/-- C4 counterexample: at bounds `(0, 720)` with margin `0` the estimator
returns `-1`, a negative integer, refuting the claim that the result is
nonnegative for every input. -/
theorem zoom_estimator_nonneg_cex :
    degree_to_zoom_level 0 720 0 = .ok (-1) ∧
    ¬ ∃ z : ℤ, degree_to_zoom_level 0 720 0 = .ok z ∧ 0 ≤ z := by
  have hspan : |(0 : ℝ) - 720| * (1 + 0) = 720 := by
    rw [abs_of_nonpos (by norm_num : (0 : ℝ) - 720 ≤ 0)]
    norm_num
  have h1 : degree_to_zoom_level 0 720 0 = .ok (-1) := by
    rw [degree_to_zoom_level_pos 0 720 0 (by rw [hspan]; norm_num), hspan]
    have h2 : (360 : ℝ) / 720 = 2⁻¹ := by norm_num
    rw [h2, Real.logb_inv, Real.logb_self_eq_one (by norm_num : (1 : ℝ) < 2)]
    rw [truncToZero_eq_of_eq_intCast _ (-1) (by push_cast; ring)]
  refine ⟨h1, ?_⟩
  rintro ⟨z, hz, hz0⟩
  rw [h1] at hz
  have : (-1 : ℤ) = z := by
    simpa using hz
  omega

/-- C4 (amended): the estimator returns a nonnegative integer whenever the
effective span `|high - low| * (1 + margin)` is nonnegative and smaller
than `720` degrees; at span `720` and beyond the truncated logarithm is
negative, and for a negative span the logarithm call fails. -/
theorem zoom_estimator_nonneg (l1 l2 margin : ℝ)
    (h0 : 0 ≤ |l1 - l2| * (1 + margin))
    (h720 : |l1 - l2| * (1 + margin) < 720) :
    ∃ z : ℤ, degree_to_zoom_level l1 l2 margin = .ok z ∧ 0 ≤ z := by
  rcases eq_or_lt_of_le h0 with hz | hp
  · exact ⟨18, degree_to_zoom_level_zero _ _ _ hz.symm, by norm_num⟩
  · refine ⟨_, degree_to_zoom_level_pos _ _ _ hp, truncToZero_nonneg ?_⟩
    have hhalf : (2⁻¹ : ℝ) < 360 / (|l1 - l2| * (1 + margin)) := by
      rw [lt_div_iff₀ hp]
      linarith
    calc (-1 : ℝ) = Real.logb 2 2⁻¹ := by
          rw [Real.logb_inv, Real.logb_self_eq_one (by norm_num : (1 : ℝ) < 2)]
      _ < Real.logb 2 (360 / (|l1 - l2| * (1 + margin))) :=
          Real.logb_lt_logb (by norm_num) (by norm_num) hhalf

/-- C4 witness: the amended theorem applied at bounds `(0, 360)` with
margin `0`, whose span `360` is below `720`. -/
theorem zoom_estimator_nonneg_witness :
    (0 ≤ |(0 : ℝ) - 360| * (1 + 0) ∧ |(0 : ℝ) - 360| * (1 + 0) < 720) ∧
    ∃ z : ℤ, degree_to_zoom_level 0 360 0 = .ok z ∧ 0 ≤ z :=
  ⟨⟨by rw [span_0_360]; norm_num, by rw [span_0_360]; norm_num⟩,
   zoom_estimator_nonneg 0 360 0 (by rw [span_0_360]; norm_num)
     (by rw [span_0_360]; norm_num)⟩

/-- C5 counterexample: at requested count `129` the failure detail is the
fixed message naming only the maximum `128`; the decimal rendering of the
requested count `129` does not occur in it, so the detail does not carry
the requested count. -/
theorem out_of_range_detail_cex :
    generate_n_visually_distinct_colors 129
      = .error "Can not generate more than 128 distinct colors." ∧
    carriesCount "Can not generate more than 128 distinct colors." 128 ∧
    ¬ carriesCount "Can not generate more than 128 distinct colors." 129 := by
  refine ⟨rfl, by decide, by decide⟩

/-- C5 (amended): whenever the generator fails because `n` exceeds the
palette length `128`, the failure detail is the fixed message that carries
the maximum supported count `128` but not, in general, the requested
count `n`. -/
theorem out_of_range_detail (n : ℤ) (h : 128 < n) :
    generate_n_visually_distinct_colors n
      = .error "Can not generate more than 128 distinct colors." ∧
    carriesCount "Can not generate more than 128 distinct colors." 128 := by
  refine ⟨?_, by decide⟩
  unfold generate_n_visually_distinct_colors
  rw [if_pos (by rw [colors_length]; omega)]
  rfl

/-- C5 witness: the amended theorem applied at `n = 129`. -/
theorem out_of_range_detail_witness :
    (128 : ℤ) < 129 ∧
    generate_n_visually_distinct_colors 129
      = .error "Can not generate more than 128 distinct colors." ∧
    carriesCount "Can not generate more than 128 distinct colors." 128 :=
  ⟨by decide, out_of_range_detail 129 (by decide)⟩

/-- C6: invoking the composer without latitude or without longitude fails
with the missing-argument assertion error, and no map object results. -/
theorem display_map_missing (latitude longitude resolution : Option (ℝ × ℝ))
    (h : latitude = none ∨ longitude = none) :
    display_map latitude longitude resolution = .error .missingArgument ∧
    ∀ m, display_map latitude longitude resolution ≠ .ok m := by
  have herr : display_map latitude longitude resolution
      = .error .missingArgument := by
    rcases h with rfl | rfl
    · rfl
    · cases latitude with
      | none => rfl
      | some a => rfl
  exact ⟨herr, fun m hm => by rw [herr] at hm; exact Except.noConfusion hm⟩

/-- C6 witness: the theorem applied with the latitude argument absent. -/
theorem display_map_missing_witness :
    ((none : Option (ℝ × ℝ)) = none ∨ (some ((0 : ℝ), (1 : ℝ)) : Option (ℝ × ℝ)) = none) ∧
    (display_map none (some ((0 : ℝ), 1)) none = .error .missingArgument ∧
      ∀ m, display_map none (some ((0 : ℝ), 1)) none ≠ .ok m) :=
  ⟨Or.inl rfl, display_map_missing none (some ((0 : ℝ), 1)) none (Or.inl rfl)⟩

/-- C7: for every dataset (and optional preexisting map) whose distinct
group-label count fits the palette, the composer succeeds, the
label-to-color assignment is the zip of the first-seen-order distinct
labels with the palette prefix of that length, and the produced map gains
one marker per row, in row order, whose stroke and fill color are both the
assignment entry of the row group value; in particular for the 3-row
dataset with labels A, B, A the assignment has exactly the two entries at
palette indices 0 and 1 and the three markers carry the matching
colors. -/
theorem grouped_pins_colors (rows : List PinRow) (fm : Option PinsMap)
    (h : (groupLabels rows).length ≤ 128) :
    generate_n_visually_distinct_colors ((groupLabels rows).length : ℤ)
      = .ok (colors.take (groupLabels rows).length) ∧
    (∃ m, display_grouped_pandas_rows_as_pins rows fm = .ok m ∧
      m.markers = (fm.elim [] (fun m0 => m0.markers))
        ++ pinMarkers rows
            ((groupLabels rows).zip (colors.take (groupLabels rows).length))) ∧
    (pinMarkers rows
        ((groupLabels rows).zip (colors.take (groupLabels rows).length))).length
      = rows.length ∧
    (∀ i (hi : i < rows.length),
      (pinMarkers rows
          ((groupLabels rows).zip (colors.take (groupLabels rows).length)))[i]?
        = some (CircleMarker.mk
            ((rows.get ⟨i, hi⟩).latitude, (rows.get ⟨i, hi⟩).longitude) 5
            (rows.get ⟨i, hi⟩).group
            (((groupLabels rows).zip
                (colors.take (groupLabels rows).length)).lookup
              (rows.get ⟨i, hi⟩).group) true
            (((groupLabels rows).zip
                (colors.take (groupLabels rows).length)).lookup
              (rows.get ⟨i, hi⟩).group))) ∧
    groupLabels demoRows = ["A", "B"] ∧
    (groupLabels demoRows).zip (colors.take (groupLabels demoRows).length)
      = [("A", "#000000"), ("B", "#FFFF00")] ∧
    (pinMarkers demoRows [("A", "#000000"), ("B", "#FFFF00")]).map
        (fun mk => mk.color)
      = [some "#000000", some "#FFFF00", some "#000000"] := by
  have hgen := grouped_pins_palette rows h
  refine ⟨hgen, ?_, ?_, ?_, by decide, by decide, by decide⟩
  · cases fm with
    | none => exact ⟨_, grouped_pins_eq_none rows _ hgen, rfl⟩
    | some m0 => exact ⟨_, grouped_pins_eq_some rows m0 _ hgen, rfl⟩
  · unfold pinMarkers
    rw [List.length_map]
  · intro i hi
    unfold pinMarkers
    rw [List.getElem?_map, List.getElem?_eq_getElem hi]
    rfl

/-- C7 witness: the theorem applied to the 3-row dataset with labels
A, B, A and no preexisting map. -/
theorem grouped_pins_colors_witness :
    (groupLabels demoRows).length ≤ 128 ∧
    (∃ m, display_grouped_pandas_rows_as_pins demoRows none = .ok m ∧
      m.markers = ((none : Option PinsMap).elim [] (fun m0 => m0.markers))
        ++ pinMarkers demoRows
            ((groupLabels demoRows).zip
              (colors.take (groupLabels demoRows).length))) :=
  ⟨by decide, (grouped_pins_colors demoRows none (by decide)).2.1⟩

/-- C8: with a nonzero per-axis resolution supplied, the produced grid
consists of one vertical segment per fixed-step longitude sample followed
by one horizontal segment per fixed-step latitude sample, each starting
from the first corner of the bounds and spaced at the per-axis resolution,
all white at opacity `0.3`; with no resolution the grid is empty. -/
theorem display_map_grid (lat1 lat2 lon1 lon2 rlat rlon : ℝ)
    (_hrlat : rlat ≠ 0) (_hrlon : rlon ≠ 0) :
    (∃ m, display_map (some (lat1, lat2)) (some (lon1, lon2))
        (some (rlat, rlon)) = .ok m ∧
      m.grid.length
        = np_arange_len lon1 lon2 |rlon| + np_arange_len lat1 lat2 |rlat| ∧
      (∀ s ∈ m.grid, s.color = "white" ∧ s.opacity = 0.3) ∧
      (∀ k, k < np_arange_len lon1 lon2 |rlon| →
        m.grid[k]? = some (Segment.mk (lat1, lon1 + (k : ℝ) * |rlon|)
          (lat2, lon1 + (k : ℝ) * |rlon|) "white" 0.3)) ∧
      (∀ k, k < np_arange_len lat1 lat2 |rlat| →
        m.grid[np_arange_len lon1 lon2 |rlon| + k]?
          = some (Segment.mk (lat1 + (k : ℝ) * |rlat|, lon1)
            (lat1 + (k : ℝ) * |rlat|, lon2) "white" 0.3))) ∧
    (∃ m, display_map (some (lat1, lat2)) (some (lon1, lon2)) none = .ok m ∧
      m.grid = []) := by
  obtain ⟨zlat, hzlat⟩ := degree_to_zoom_level_ok lat1 lat2 (-0.5) (by norm_num)
  obtain ⟨zlon, hzlon⟩ := degree_to_zoom_level_ok lon1 lon2 (-0.5) (by norm_num)
  constructor
  · refine ⟨_, display_map_some (lat1, lat2) (lon1, lon2) (some (rlat, rlon))
      zlat zlon hzlat hzlon, ?_, ?_, ?_, ?_⟩
    · exact gridOverlay_length (lat1, lat2) (lon1, lon2) (rlat, rlon)
    · intro s hs
      exact gridOverlay_mem (lat1, lat2) (lon1, lon2) (rlat, rlon) s hs
    · intro k hk
      exact gridOverlay_vertical (lat1, lat2) (lon1, lon2) (rlat, rlon) k hk
    · intro k hk
      exact gridOverlay_horizontal (lat1, lat2) (lon1, lon2) (rlat, rlon) k hk
  · exact ⟨_, display_map_some (lat1, lat2) (lon1, lon2) none
      zlat zlon hzlat hzlon, rfl⟩

/-- C8 witness: the theorem applied at bounds `(0,1)` on both axes with
resolution `(1,1)`; in particular with no resolution the grid is empty. -/
theorem display_map_grid_witness :
    ((1 : ℝ) ≠ 0) ∧
    (∃ m, display_map (some ((0 : ℝ), 1)) (some ((0 : ℝ), 1)) none = .ok m ∧
      m.grid = []) :=
  ⟨one_ne_zero, (display_map_grid 0 1 0 1 1 1 one_ne_zero one_ne_zero).2⟩

/-- C9: the zoom estimator is symmetric under swapping the two bounds,
because it only uses the absolute difference of the bounds. -/
theorem zoom_estimator_symm (l1 l2 margin : ℝ) :
    degree_to_zoom_level l1 l2 margin = degree_to_zoom_level l2 l1 margin := by
  unfold degree_to_zoom_level
  rw [abs_sub_comm]

/-- C10: for a negative requested count `n` with `-128 ≤ n < 0` the
generator does not fail: Python slicing with a negative stop silently
returns the first `128 + n` palette entries. -/
theorem distinct_colors_negative (n : ℤ) (h1 : -128 ≤ n) (h2 : n < 0) :
    generate_n_visually_distinct_colors n = .ok (colors.take (128 + n).toNat) ∧
    ∀ e, generate_n_visually_distinct_colors n ≠ .error e := by
  have hok : generate_n_visually_distinct_colors n
      = .ok (colors.take (128 + n).toNat) := by
    unfold generate_n_visually_distinct_colors
    rw [if_neg (by rw [colors_length]; omega)]
    unfold pySliceTo
    rw [if_neg (by omega), colors_length]
    have harg : (128 : ℕ) - (-n).toNat = (128 + n).toNat := by omega
    rw [harg]
  exact ⟨hok, fun e he => by rw [hok] at he; exact Except.noConfusion he⟩

/-- C10 witness: the theorem applied at `n = -5`, which returns the first
`123` palette entries. -/
theorem distinct_colors_negative_witness :
    ((-128 : ℤ) ≤ -5 ∧ (-5 : ℤ) < 0) ∧
    generate_n_visually_distinct_colors (-5)
      = .ok (colors.take (128 + (-5) : ℤ).toNat) ∧
    ∀ e, generate_n_visually_distinct_colors (-5) ≠ .error e :=
  ⟨⟨by decide, by decide⟩, distinct_colors_negative (-5) (by decide) (by decide)⟩

end DcDisplayMap
